import Mathlib

/-!
# Chat server (`server.c`): registry, session worker and command interpreter

A shallow embedding of `someone_connected` and `server_client_thread`.

* Bytes are natural numbers; a `char[n]` field is a list of `n` bytes.
* A `char *` queue entry always points at the `_name` field of some slot of
  `_chat_server._users`; it is represented by the index of that slot.
* A thread is modelled by its locals and the place where it is parked.  A step
  of a thread is the code between two blocking points (dispatch, the
  `socket_tcp_receive` call, return); steps of different threads interleave
  freely.
* An access the C standard leaves undefined (a load or store outside the
  `_users` array, a store past the end of a field, a `%s` read of a field
  without terminator, a `size_t` length that wrapped) makes the step return
  `none`; so does a queue call on a null `p_queue`, whose
  outcome the sources do not determine.
* The socket, queue and thread pool libraries are collaborators outside the
  sources: a send or shutdown is an entry of the transport trace, a receive is
  an input of the step, a queue is a list.
* `printf` logging to the server console is not part of the model.
-/

namespace Chat

/-! ## Bytes and C strings -/

/-- Bytes of an ASCII literal. -/
def bytes (s : String) : List Nat := s.toList.map Char.toNat

/-- The constant `MAX_BUFFER_LEN`. -/
def MAX_BUFFER_LEN : Nat := 1024

/-- The modulus of `size_t` arithmetic (LP64). -/
def SIZE_MOD : Nat := 2 ^ 64

/-- A block of `n` zero bytes (`memset (p, 0, n)`, `= { 0 }`). -/
def zeros (n : Nat) : List Nat := List.replicate n 0

/-- An `n` byte field initialised from a literal: the text, then zero fill. -/
def field (n : Nat) (s : List Nat) : List Nat := s ++ zeros (n - s.length)

/-- The bytes in front of the first NUL. -/
def cstr (buf : List Nat) : List Nat := buf.takeWhile (fun b => b ≠ 0)

/-- Result of `strlen (buf)`: defined when a terminator lies inside the storage. -/
def strlen (buf : List Nat) : Option Nat :=
  if 0 ∈ buf then some (cstr buf).length else none

/-- The text a `%s` conversion reads from `buf`. -/
def read_str (buf : List Nat) : Option (List Nat) :=
  if 0 ∈ buf then some (cstr buf) else none

/-- Whether `strncmp (buf, lit, lit.length) == 0`, for a literal without NUL. -/
def strncmp_eq (buf lit : List Nat) : Bool := buf.take lit.length == lit

/-- Store `bs` at offset `off` of `buf`; undefined when it runs past the end. -/
def poke (buf : List Nat) (off : Nat) (bs : List Nat) : Option (List Nat) :=
  if off + bs.length ≤ buf.length then
    some (buf.take off ++ bs ++ buf.drop (off + bs.length))
  else none

/-- Effect of `memcpy (dst, src, n)` on `dst`. -/
def memcpy (dst src : List Nat) (n : Nat) : Option (List Nat) :=
  if n ≤ src.length then poke dst 0 (src.take n) else none

/-- Effect of `snprintf (&buf[off], size, ...)` on `buf`, where `out` is the
formatted text: at most `size - 1` bytes of it are stored, then a NUL.  The
value returned by the call is `out.length`. -/
def snprintf (buf : List Nat) (off size : Nat) (out : List Nat) : Option (List Nat) :=
  if size = 0 then (if off ≤ buf.length then some buf else none)
  else poke buf off (out.take (size - 1) ++ [0])

/-! ## Data model -/

/-- The record `struct client_s`. -/
structure client where
  _name : List Nat
  _channel : List Nat
  _in_buf : List Nat
  connected : Bool
  p_queue : Option (List Int)
  _tcp_socket : Nat
deriving DecidableEq

/-- The static `_chat_server` (socket, thread pool and lock handles left out). -/
structure chat_server where
  port : Nat
  max_users : Int
  _name : List Nat
  connections : Int
  _users : List client
deriving DecidableEq

/-- What goes over the transport. -/
inductive io where
  | send (sock : Nat) (data : List Nat)
  | destroy (sock : Nat)
deriving DecidableEq

/-- Where a `server_client_thread` invocation is parked. -/
inductive stage where
  | dispatched
  | loop_test
  | receiving
  | leaving
deriving DecidableEq

/-- Locals of one `server_client_thread` invocation. -/
structure worker where
  p_client : Int
  _message_queue : List Nat
  message_queue_len : Nat
  status : Int
  at_stage : stage
deriving DecidableEq

/-- The server, the running thread pool jobs and the transport trace. -/
structure system where
  server : chat_server
  workers : List worker
  wire : List io
deriving DecidableEq

/-- A client slot of static storage before any store to it. -/
def zeroed_client : client :=
  { _name := zeros 64, _channel := zeros 64, _in_buf := zeros MAX_BUFFER_LEN,
    connected := false, p_queue := none, _tcp_socket := 0 }

/-- State of `_chat_server` after `chat_server_init`. -/
def chat_server_init : chat_server :=
  { port := 3000, max_users := 8, _name := field 128 (bytes "chat"),
    connections := 0, _users := List.replicate 8 zeroed_client }

/-- The system when `main` enters the listen loop. -/
def boot (srv : chat_server) : system := { server := srv, workers := [], wire := [] }

/-- Read of `_users[i]`; undefined outside the array. -/
def user_at (users : List client) (i : Int) : Option client :=
  if 0 ≤ i then users[i.toNat]? else none

/-- Store to `_users[i]`; undefined outside the array. -/
def store_user (users : List client) (i : Int) (c : client) : Option (List client) :=
  if 0 ≤ i ∧ i.toNat < users.length then some (users.set i.toNat c) else none

/-! ## Listener: `someone_connected` -/

/-- The 31 bytes sent to a rejected peer (30 characters and the terminator). -/
def SERVER_FULL : List Nat := bytes "\x1b[41m\x1b[[[[[SERVER FULL]]]\x1b[0m\n" ++ [0]

/-- Output of `"anon%d"` for `rand () % 10000`. -/
def anon_name (rnd : Nat) : List Nat :=
  bytes "anon" ++ (Nat.toDigits 10 (rnd % 10000)).map Char.toNat

/-- The compound literal stored to the slot, followed by the `snprintf` of the name. -/
def fresh_client (sock rnd : Nat) : client :=
  { _name := field 64 (anon_name rnd), _channel := field 64 (bytes "general"),
    _in_buf := zeros MAX_BUFFER_LEN, connected := true, p_queue := none,
    _tcp_socket := sock }

/-- Locals of a `server_client_thread` invocation handed to the thread pool. -/
def new_worker (p_client : Int) : worker :=
  { p_client := p_client, _message_queue := zeros 4096, message_queue_len := 0,
    status := 1, at_stage := stage.dispatched }

/-- Index of the slot `someone_connected` stores to: `&_users[connections]`. -/
def someone_connected_slot (srv : chat_server) : Int := srv.connections

/-- The function `someone_connected`: new server state, bytes put on the wire,
and the thread pool job started (if any).  The record is stored to the slot
before the capacity test. -/
def someone_connected (srv : chat_server) (sock rnd : Nat) :
    Option (chat_server × List io × Option worker) := do
  let p_client := someone_connected_slot srv
  let users ← store_user srv._users p_client (fresh_client sock rnd)
  if srv.connections = srv.max_users then
    pure ({ srv with _users := users }, [io.send sock SERVER_FULL, io.destroy sock], none)
  else
    pure ({ srv with _users := users, connections := srv.connections + 1 }, [],
          some (new_worker p_client))

/-! ## The queue collaborator -/

/-- Modelled from the spec: `queue_construct` of the queue library, which is not
part of the sources.  Per §4.4 a mailbox is a FIFO sequence; a new one is empty. -/
def queue_construct : List Int := []

/-- Modelled from the spec: `queue_enqueue` of the queue library (§4.4: append
to the tail). -/
def queue_enqueue (q : List Int) (data : Int) : List Int := q ++ [data]

/-! ## Worker: `server_client_thread` -/

/-- The call `queue_construct (&p_client->p_queue)` in front of the loop. -/
def thread_construct (srv : chat_server) (w : worker) : Option (chat_server × worker) := do
  let c ← user_at srv._users w.p_client
  let users ← store_user srv._users w.p_client { c with p_queue := some queue_construct }
  pure ({ srv with _users := users }, { w with at_stage := stage.loop_test })

/-- What `"%s\n"` prints for a dequeued pointer: the name its slot holds now,
and a newline. -/
def entry_text (users : List client) (p_sender : Int) : Option (List Nat) := do
  let u ← user_at users p_sender
  let nm ← read_str u._name
  pure (nm ++ [10])

/-- The inner `while (queue_empty (...) == false)` loop (§4.4: entries leave the
queue head first): every dequeued pointer
is printed with `"%s\n"` into `_message_queue` at offset `message_queue_len`,
with room `sizeof (_message_queue) - message_queue_len`. -/
def drain (users : List client) : List Int → List Nat → Nat → Option (List Nat × Nat)
  | [], mq, len => some (mq, len)
  | p_sender :: rest, mq, len => do
    let out ← entry_text users p_sender
    if 4096 < len then none
    else
      let mq1 ← snprintf mq len (4096 - len) out
      drain users rest mq1 (len + out.length)

/-- Output of the prompt format
`"%s\033[01;32m%s@%s \033[01;34m%s\033[0m > \033[0m"`. -/
def prompt_text (pending name server_name channel : List Nat) : List Nat :=
  pending ++ (bytes "\x1b[01;32m" ++ name ++ bytes "@" ++ server_name ++
    bytes " \x1b[01;34m" ++ channel ++ bytes "\x1b[0m > \x1b[0m")

/-- The identity part of the prompt (everything after the leading `%s`). -/
def identity_prompt (name server_name channel : List Nat) : List Nat :=
  prompt_text [] name server_name channel

/-- From the loop test to the `socket_tcp_receive` call: test `connected` and
`status`, clear `_in_buf` and `_prompt`, drain the queue into `_message_queue`,
print the prompt at `&_prompt[message_queue_len]` and send
`message_queue_len` bytes of `_prompt`. -/
def thread_prompt (srv : chat_server) (w : worker) :
    Option (chat_server × worker × List io) := do
  let c ← user_at srv._users w.p_client
  if c.connected = false ∨ w.status < 0 then
    pure (srv, { w with at_stage := stage.leaving }, [])
  else
    let q ← c.p_queue
    let c1 := { c with _in_buf := zeros MAX_BUFFER_LEN }
    let users1 ← store_user srv._users w.p_client c1
    let r ← drain users1 q w._message_queue 0
    let pending ← read_str r.1
    let nm ← read_str c1._name
    let sn ← read_str srv._name
    let ch ← read_str c1._channel
    let out := prompt_text pending nm sn ch
    let _prompt ← snprintf (zeros 128) r.2 128 out
    let total := r.2 + out.length
    let users2 ← store_user srv._users w.p_client { c1 with p_queue := some [] }
    if total ≤ 128 then
      pure ({ srv with _users := users2 },
            { w with _message_queue := r.1, message_queue_len := total,
                     at_stage := stage.receiving },
            [io.send c1._tcp_socket (_prompt.take total)])
    else none

/-- The `size_t` value of `n - 1`. -/
def size_pred (n : Nat) : Nat := (n + SIZE_MOD - 1) % SIZE_MOD

/-- Number of bytes the `/join ` branch passes to `memcpy`:
`strlen (&_in_buf[6]) - 1`. -/
def join_copy_len (in_buf : List Nat) : Option Nat := do
  let n ← strlen (in_buf.drop 6)
  pure (size_pred n)

/-- The line after `_in_buf[strlen (_in_buf) - 1] = '\0'`. -/
def cut_last (in_buf : List Nat) : Option (List Nat) := do
  let n ← strlen in_buf
  poke in_buf (size_pred n) [0]

/-- Number of bytes the `/nick ` branch passes to `memcpy`:
`strlen (&_in_buf[6])` after the last byte of the line was cut. -/
def nick_copy_len (in_buf : List Nat) : Option Nat := do
  let buf ← cut_last in_buf
  strlen (buf.drop 6)

/-- The `/join ` branch: clear `_channel`, copy the remainder without its last byte. -/
def join_command (c : client) : Option client := do
  let n ← join_copy_len c._in_buf
  let ch ← memcpy (zeros 64) (c._in_buf.drop 6) n
  pure { c with _channel := ch }

/-- The `/nick ` branch: cut the last byte of the line, clear `_name`, copy the
remainder. -/
def nick_command (c : client) : Option client := do
  let buf ← cut_last c._in_buf
  let m ← strlen (buf.drop 6)
  let nm ← memcpy (zeros 64) (buf.drop 6) m
  pure { c with _in_buf := buf, _name := nm }

/-- The three `strncmp` tests made on a line that starts with `/`; they are
independent `if`s, taken in this order. -/
def evaluate_command (c : client) (status : Int) : Option (client × Int) := do
  let status1 := if strncmp_eq c._in_buf (bytes "/disconnect") then -1 else status
  let c1 ← if strncmp_eq c._in_buf (bytes "/join ") then join_command c else some c
  let c2 ← if strncmp_eq c1._in_buf (bytes "/nick ") then nick_command c1 else some c1
  pure (c2, status1)

/-- One `queue_enqueue (_users[i].p_queue, p_client->_name)`. -/
def enqueue_at (users : List client) (i : Nat) (p_sender : Int) : Option (List client) := do
  let u ← users[i]?
  let q ← u.p_queue
  pure (users.set i { u with p_queue := some (queue_enqueue q p_sender) })

/-- The `for` loop of the `else` branch, for `i = 0 .. n - 1`. -/
def enqueue_all (users : List client) (p_sender : Int) : Nat → Option (List client)
  | 0 => some users
  | n + 1 => do
    let us ← enqueue_all users p_sender n
    enqueue_at us n p_sender

/-- From the return of `socket_tcp_receive` (result `status`, received bytes
`data` stored at the start of `_in_buf`) back to the loop test. -/
def thread_input (srv : chat_server) (w : worker) (status : Int) (data : List Nat) :
    Option (chat_server × worker) := do
  let c ← user_at srv._users w.p_client
  let buf ← poke c._in_buf 0 (data.take MAX_BUFFER_LEN)
  let c1 := { c with _in_buf := buf }
  if buf.head? = some 47 then
    let r ← evaluate_command c1 status
    let users1 ← store_user srv._users w.p_client r.1
    pure ({ srv with _users := users1 },
          { w with status := r.2, at_stage := stage.loop_test })
  else
    if srv.connections < 0 then none
    else
      let users1 ← store_user srv._users w.p_client c1
      let users2 ← enqueue_all users1 w.p_client srv.connections.toNat
      pure ({ srv with _users := users2 },
            { w with status := status, at_stage := stage.loop_test })

/-- After the loop: the `BYE` notice and the socket shutdown when
`status == -1`, then `connections--`. -/
def thread_exit (srv : chat_server) (w : worker) : Option (chat_server × List io) :=
  if w.status = -1 then do
    let c ← user_at srv._users w.p_client
    pure ({ srv with connections := srv.connections - 1 },
          [io.send c._tcp_socket (bytes "BYE\n"), io.destroy c._tcp_socket])
  else some ({ srv with connections := srv.connections - 1 }, [])

/-! ## The system -/

/-- What can happen next: the listener accepts a peer, a parked thread runs to
its next blocking point, or a blocked receive returns. -/
inductive action where
  | connect (sock rnd : Nat)
  | resume (k : Nat)
  | deliver (k : Nat) (status : Int) (data : List Nat)
deriving DecidableEq

/-- One step of the system. -/
def step (s : system) : action → Option system
  | action.connect sock rnd => do
    let r ← someone_connected s.server sock rnd
    pure { server := r.1, workers := s.workers ++ r.2.2.toList, wire := s.wire ++ r.2.1 }
  | action.resume k => do
    let w ← s.workers[k]?
    match w.at_stage with
    | stage.dispatched =>
      let r ← thread_construct s.server w
      pure { s with server := r.1, workers := s.workers.set k r.2 }
    | stage.loop_test =>
      let r ← thread_prompt s.server w
      pure { server := r.1, workers := s.workers.set k r.2.1, wire := s.wire ++ r.2.2 }
    | stage.receiving => none
    | stage.leaving =>
      let r ← thread_exit s.server w
      pure { server := r.1, workers := s.workers.eraseIdx k, wire := s.wire ++ r.2 }
  | action.deliver k status data => do
    let w ← s.workers[k]?
    match w.at_stage with
    | stage.receiving =>
      let r ← thread_input s.server w status data
      pure { s with server := r.1, workers := s.workers.set k r.2 }
    | _ => none

/-- Run a list of actions. -/
def exec (s : system) : List action → Option system
  | [] => some s
  | a :: rest =>
    match step s a with
    | none => none
    | some s1 => exec s1 rest

/-- Two client records that differ at most in `_in_buf`. -/
def same_but_in_buf (u u1 : client) : Prop :=
  u1._name = u._name ∧ u1._channel = u._channel ∧ u1.connected = u.connected ∧
    u1.p_queue = u.p_queue ∧ u1._tcp_socket = u._tcp_socket

/-! ## Concrete states used in the examples -/

/-- An admitted session whose thread has constructed its queue. -/
def session (sock rnd : Nat) : client := { fresh_client sock rnd with p_queue := some [] }

/-- A thread for slot `i`, parked in `socket_tcp_receive` after its first prompt. -/
def worker_at (i : Int) : worker :=
  { new_worker i with message_queue_len := 45, at_stage := stage.receiving }

/-- The default server with two sessions, `anon1` on socket 10 and `anon2` on
socket 11. -/
def two_sessions : chat_server :=
  { chat_server_init with
      connections := 2,
      _users := [session 10 1, session 11 2] ++ List.replicate 6 zeroed_client }

/-- The record of a session after `/nick s` arrived in its cleared `_in_buf`:
the line with its last byte cut stays in `_in_buf`, `_name` holds `s`. -/
def after_nick (c : client) (s : List Nat) : client :=
  { c with _in_buf := bytes "/nick " ++ s ++ zeros (1016 - s.length + 2), _name := field 64 s }

/-! ## Runs used in the examples

All start from the default configuration (`max_users = 8`, server name `chat`).
Peers connect on sockets 10, 11, 12, ... and `rand ()` returns 1, 2, 3, ..., so
the sessions are `anon1`, `anon2`, `anon3`, ... -/

/-- The queues of the eight slots. -/
def queues (s : system) : List (Option (List Int)) := s.server._users.map client.p_queue

/-- The slots the running threads work on. -/
def thread_slots (s : system) : List Int := s.workers.map worker.p_client

/-- Where the running threads are parked. -/
def thread_stages (s : system) : List stage := s.workers.map worker.at_stage

/-- The `status` local of the running threads. -/
def thread_status (s : system) : List Int := s.workers.map worker.status

/-- The last thing put on the wire. -/
def last_io (s : system) : Option io := s.wire.getLast?

/-- The C strings in the `_name` fields of the eight slots. -/
def names (s : system) : List (List Nat) := s.server._users.map (fun c => cstr c._name)

/-- The sockets in the eight slots. -/
def sockets (s : system) : List Nat := s.server._users.map client._tcp_socket

/-- Three sessions; the first one leaves with `/disconnect`, then the third one
is prompted. -/
def run_first_leaves : List action :=
  [action.connect 10 1, action.connect 11 2, action.connect 12 3,
   action.resume 0, action.resume 1, action.resume 2,
   action.resume 0, action.deliver 0 12 (bytes "/disconnect\n"),
   action.resume 0, action.resume 0, action.resume 1]

/-- Two sessions, both prompted; the first one sends `/disconnect` and its
thread runs to its end. -/
def run_disconnect : List action :=
  [action.connect 10 1, action.connect 11 2, action.resume 0, action.resume 1,
   action.resume 0, action.resume 1, action.deliver 0 12 (bytes "/disconnect\n"),
   action.resume 0, action.resume 0]

/-- One session, prompted once. -/
def run_prompted : List action :=
  [action.connect 10 1, action.resume 0, action.resume 0]

/-- Two sessions; the first sends `hello` and then `/nick bob`, after that the
second gets a line of its own (`/join x`). -/
def run_rename : List action :=
  [action.connect 10 1, action.connect 11 2, action.resume 0, action.resume 1,
   action.resume 0, action.resume 1, action.deliver 0 6 (bytes "hello\n"),
   action.resume 0, action.deliver 0 10 (bytes "/nick bob\n"),
   action.deliver 1 8 (bytes "/join x\n")]

/-- One session that sends `hello`, is prompted, and sends `/join x`. -/
def run_stale : List action :=
  [action.connect 10 1, action.resume 0, action.resume 0,
   action.deliver 0 6 (bytes "hello\n"), action.resume 0,
   action.deliver 0 8 (bytes "/join x\n")]

/-- Eight peers connect. -/
def run_full : List action :=
  [action.connect 10 1, action.connect 11 2, action.connect 12 3, action.connect 13 4,
   action.connect 14 5, action.connect 15 6, action.connect 16 7, action.connect 17 8]

/-- A `_in_buf` holding `line` after a receive into the cleared buffer. -/
def received (line : List Nat) : List Nat := field MAX_BUFFER_LEN line

theorem user_at_some {users : List client} {i : Int} {c : client}
    (h : user_at users i = some c) : 0 ≤ i ∧ users[i.toNat]? = some c := by
  unfold user_at at h
  split at h
  · rename_i hi; exact ⟨hi, h⟩
  · simp at h

theorem user_at_lt {users : List client} {i : Int} {c : client}
    (h : user_at users i = some c) : i.toNat < users.length := by
  obtain ⟨_, hget⟩ := user_at_some h
  rcases Nat.lt_or_ge i.toNat users.length with h1 | h1
  · exact h1
  · rw [List.getElem?_eq_none h1] at hget; simp at hget

/-- A store to a slot that was read is defined. -/
theorem store_user_of_user_at {users : List client} {i : Int} {c : client}
    (h : user_at users i = some c) (c1 : client) :
    store_user users i c1 = some (users.set i.toNat c1) := by
  unfold store_user
  rw [if_pos ⟨(user_at_some h).1, user_at_lt h⟩]

theorem zero_mem_append_zeros (a : List Nat) {n : Nat} (hn : 0 < n) : 0 ∈ a ++ zeros n := by
  obtain ⟨m, rfl⟩ : ∃ m, n = m + 1 := ⟨n - 1, by omega⟩
  simp [zeros, List.replicate_succ]

theorem cstr_append_zeros {a : List Nat} (ha : 0 ∉ a) (n : Nat) : cstr (a ++ zeros n) = a := by
  unfold cstr zeros
  rw [List.takeWhile_append_of_pos]
  · cases n with
    | zero => simp
    | succ m => simp [List.replicate_succ]
  · intro b hb
    have : b ≠ 0 := fun h => ha (h ▸ hb)
    simpa using this

theorem strlen_append_zeros {a : List Nat} (ha : 0 ∉ a) {n : Nat} (hn : 0 < n) :
    strlen (a ++ zeros n) = some a.length := by
  simp [strlen, zero_mem_append_zeros a hn, cstr_append_zeros ha]

theorem read_str_append_zeros {a : List Nat} (ha : 0 ∉ a) {n : Nat} (hn : 0 < n) :
    read_str (a ++ zeros n) = some a := by
  simp [read_str, zero_mem_append_zeros a hn, cstr_append_zeros ha]

theorem read_str_field {a : List Nat} (ha : 0 ∉ a) {n : Nat} (hn : a.length < n) :
    read_str (field n a) = some a :=
  read_str_append_zeros ha (by omega)

theorem poke_zeros_front {d : List Nat} {n : Nat} (h : d.length ≤ n) :
    poke (zeros n) 0 d = some (field n d) := by
  simp [poke, zeros, field, h]

theorem size_pred_succ (n : Nat) (h : n + 1 < SIZE_MOD) : size_pred (n + 1) = n := by
  unfold size_pred
  have : n + 1 + SIZE_MOD - 1 = n + SIZE_MOD := by omega
  rw [this, Nat.add_mod_right, Nat.mod_eq_of_lt (by omega)]

theorem zeros_succ (n : Nat) : zeros (n + 1) = 0 :: zeros n := rfl

/-- Overwriting the last byte of a line in zeroed storage with NUL. -/
theorem poke_last (a : List Nat) (x n : Nat) :
    poke (a ++ x :: zeros n) a.length [0] = some (a ++ zeros (n + 1)) := by
  simp [poke, zeros_succ]

theorem bytes_nick : bytes "/nick " = [47, 110, 105, 99, 107, 32] := by decide
theorem bytes_join : bytes "/join " = [47, 106, 111, 105, 110, 32] := by decide
theorem bytes_disconnect :
    bytes "/disconnect" = [47, 100, 105, 115, 99, 111, 110, 110, 101, 99, 116] := by decide

theorem user_at_set {users : List client} {i : Int} {c : client}
    (h : user_at users i = some c) (c1 : client) :
    user_at (users.set i.toNat c1) i = some c1 := by
  have hi := (user_at_some h).1
  have hlt := user_at_lt h
  unfold user_at
  rw [if_pos hi]
  simp [List.getElem?_set, hlt]

theorem size_small (n : Nat) (h : n ≤ 1024) : n + 1 < SIZE_MOD := by
  have : (2:Nat) ^ 64 = 18446744073709551616 := by norm_num
  unfold SIZE_MOD; omega

theorem cut_last_line (a : List Nat) (x n : Nat) (ha : 0 ∉ a) (hx : x ≠ 0)
    (hlen : a.length ≤ 1024) :
    cut_last (a ++ x :: zeros (n + 1)) = some (a ++ zeros (n + 2)) := by
  have hline : 0 ∉ a ++ [x] := by
    simp [ha]; omega
  have e : a ++ x :: zeros (n + 1) = (a ++ [x]) ++ zeros (n + 1) := by simp
  unfold cut_last
  rw [e, strlen_append_zeros hline (by omega)]
  simp only [Option.bind_eq_bind, Option.some_bind, List.length_append, List.length_singleton]
  rw [size_pred_succ _ (size_small _ hlen), ← e]
  exact poke_last a x (n + 1)

/-- The `/nick ` branch on `p ++ s ++ [x]` in zeroed storage, `p` six bytes. -/
theorem nick_command_line (c : client) (p s : List Nat) (x n : Nat) (hp : p.length = 6)
    (hp0 : 0 ∉ p) (hs : 0 ∉ s) (hx : x ≠ 0) (hlen : s.length ≤ 63)
    (hbuf : c._in_buf = p ++ s ++ x :: zeros (n + 1)) :
    nick_command c =
      some { c with _in_buf := p ++ s ++ zeros (n + 2), _name := field 64 s } := by
  have hps : 0 ∉ p ++ s := by simp [hp0, hs]
  have hcut : cut_last c._in_buf = some (p ++ s ++ zeros (n + 2)) := by
    rw [hbuf]
    exact cut_last_line (p ++ s) x n hps hx (by simp [hp]; omega)
  have hdrop : (p ++ s ++ zeros (n + 2)).drop 6 = s ++ zeros (n + 2) := by
    rw [List.append_assoc, List.drop_left' hp]
  unfold nick_command
  rw [hcut]
  simp only [Option.bind_eq_bind, Option.some_bind, hdrop]
  rw [strlen_append_zeros hs (by omega)]
  simp only [Option.some_bind, memcpy]
  have : s.length ≤ (s ++ zeros (n + 2)).length := by simp
  rw [if_pos this, List.take_left, @poke_zeros_front s 64 (by omega)]
  show some _ = some _
  exact congrArg some (by rfl)

theorem join_command_line (c : client) (p s : List Nat) (x n : Nat) (hp : p.length = 6)
    (hs : 0 ∉ s) (hx : x ≠ 0) (hlen : s.length ≤ 63)
    (hbuf : c._in_buf = p ++ s ++ x :: zeros (n + 1)) :
    join_command c = some { c with _channel := field 64 s } := by
  have hrest : 0 ∉ s ++ [x] := by
    simp [hs]; omega
  have hdrop : c._in_buf.drop 6 = (s ++ [x]) ++ zeros (n + 1) := by
    rw [hbuf, List.append_assoc, List.drop_left' hp]; simp
  have hl : (s ++ [x]).length = s.length + 1 := by simp
  have hcopy : join_copy_len c._in_buf = some s.length := by
    unfold join_copy_len
    rw [hdrop, strlen_append_zeros hrest (by omega), hl]
    show some (size_pred (s.length + 1)) = some s.length
    rw [size_pred_succ _ (size_small _ (by omega))]
  have htake : (c._in_buf.drop 6).take s.length = s := by
    rw [hdrop, List.append_assoc, List.take_left]
  have hsrc : s.length ≤ (c._in_buf.drop 6).length := by
    rw [hdrop]; simp
  unfold join_command
  rw [hcopy]
  show (memcpy (zeros 64) (c._in_buf.drop 6) s.length).bind _ = _
  unfold memcpy
  rw [if_pos hsrc, htake, @poke_zeros_front s 64 (by omega)]
  show some _ = some _
  exact congrArg some rfl

theorem strncmp_nick_line (rest : List Nat) :
    strncmp_eq (bytes "/nick " ++ rest) (bytes "/disconnect") = false ∧
    strncmp_eq (bytes "/nick " ++ rest) (bytes "/join ") = false ∧
    strncmp_eq (bytes "/nick " ++ rest) (bytes "/nick ") = true := by
  rw [bytes_nick, bytes_join, bytes_disconnect]
  simp [strncmp_eq]

theorem strncmp_join_line (rest : List Nat) :
    strncmp_eq (bytes "/join " ++ rest) (bytes "/disconnect") = false ∧
    strncmp_eq (bytes "/join " ++ rest) (bytes "/join ") = true ∧
    strncmp_eq (bytes "/join " ++ rest) (bytes "/nick ") = false := by
  rw [bytes_nick, bytes_join, bytes_disconnect]
  simp [strncmp_eq]

/-- What `socket_tcp_receive` leaves in a cleared `_in_buf` for a line of six
bytes `p`, at most 63 bytes `s` and one more byte `x`. -/
theorem receive_line (p s : List Nat) (x : Nat) (hp : p.length = 6) (hlen : s.length ≤ 63) :
    poke (zeros MAX_BUFFER_LEN) 0 ((p ++ s ++ [x]).take MAX_BUFFER_LEN) =
      some (p ++ s ++ x :: zeros (1016 - s.length + 1)) := by
  have hl : (p ++ s ++ [x]).length = s.length + 7 := by
    simp [hp]; omega
  have hle : (p ++ s ++ [x]).length ≤ MAX_BUFFER_LEN := by
    rw [hl]; unfold MAX_BUFFER_LEN; omega
  rw [List.take_of_length_le hle, poke_zeros_front hle]
  unfold field
  rw [hl]
  have : MAX_BUFFER_LEN - (s.length + 7) = 1016 - s.length + 1 := by
    unfold MAX_BUFFER_LEN; omega
  rw [this]
  simp

/-- The interpreter on a `/nick` line held in cleared storage. -/
theorem evaluate_nick_line (c : client) (status : Int) (s : List Nat) (n : Nat)
    (hs : 0 ∉ s) (hlen : s.length ≤ 63)
    (hbuf : c._in_buf = bytes "/nick " ++ s ++ 10 :: zeros (n + 1)) :
    evaluate_command c status =
      some ({ c with _in_buf := bytes "/nick " ++ s ++ zeros (n + 2), _name := field 64 s },
            status) := by
  have h := strncmp_nick_line (s ++ 10 :: zeros (n + 1))
  rw [← List.append_assoc, ← hbuf] at h
  have hn := nick_command_line c (bytes "/nick ") s 10 n (by decide) (by decide) hs
    (by decide) hlen hbuf
  unfold evaluate_command
  rw [h.1, h.2.1]
  simp only [Bool.false_eq_true, if_false, Option.bind_eq_bind, Option.some_bind]
  rw [h.2.2, if_pos rfl, hn]
  simp only [Option.some_bind, Option.pure_def]

/-- The interpreter on a `/join` line held in cleared storage. -/
theorem evaluate_join_line (c : client) (status : Int) (s : List Nat) (n : Nat)
    (hs : 0 ∉ s) (hlen : s.length ≤ 63)
    (hbuf : c._in_buf = bytes "/join " ++ s ++ 10 :: zeros (n + 1)) :
    evaluate_command c status = some ({ c with _channel := field 64 s }, status) := by
  have h := strncmp_join_line (s ++ 10 :: zeros (n + 1))
  rw [← List.append_assoc, ← hbuf] at h
  have hj := join_command_line c (bytes "/join ") s 10 n (by decide) hs (by decide) hlen hbuf
  unfold evaluate_command
  rw [h.1, h.2.1, if_pos rfl, hj]
  simp only [Bool.false_eq_true, if_false, Option.bind_eq_bind, Option.some_bind]
  have h3 : strncmp_eq ({ c with _channel := field 64 s } : client)._in_buf (bytes "/nick ")
      = false := h.2.2
  rw [h3]
  simp only [Bool.false_eq_true, if_false, Option.some_bind, Option.pure_def]

theorem bytes_nl : bytes "\n" = [10] := by decide

/-- The whole input step on a `/nick` line, with the resulting state spelled out. -/
theorem thread_input_nick_line (srv : chat_server) (w : worker) (c : client) (status : Int)
    (s : List Nat) (hc : user_at srv._users w.p_client = some c)
    (hbuf : c._in_buf = zeros MAX_BUFFER_LEN) (hlen : s.length ≤ 63) (hnul : 0 ∉ s) :
    thread_input srv w status (bytes "/nick " ++ s ++ bytes "\n") =
      some ({ srv with _users := srv._users.set w.p_client.toNat (after_nick c s) },
            { w with status := status, at_stage := stage.loop_test }) := by
  have hrecv := receive_line (bytes "/nick ") s 10 (by decide) hlen
  have hev := evaluate_nick_line
    { c with _in_buf := bytes "/nick " ++ s ++ 10 :: zeros (1016 - s.length + 1) }
    status s (1016 - s.length) hnul hlen rfl
  have hhead : (bytes "/nick " ++ s ++ 10 :: zeros (1016 - s.length + 1)).head? = some 47 := by
    rw [bytes_nick]; rfl
  unfold thread_input
  rw [hc, bytes_nl]
  simp only [Option.bind_eq_bind, Option.some_bind]
  rw [hbuf, hrecv]
  simp only [Option.some_bind]
  rw [if_pos hhead, hev]
  simp only [Option.some_bind]
  rw [store_user_of_user_at hc]
  simp only [Option.some_bind, Option.pure_def]
  rfl

/-- C4. `/nick` sets the name: for a session whose `_in_buf` was cleared for the
receive, and every text `s` of at most 63 bytes without NUL and without line
terminator, processing the received line `"/nick " ++ s ++ "\n"` leaves the
session with a name that reads exactly `s` (empty `s` gives the empty name);
channel, connection flag, queue and socket are unchanged. -/
theorem nick_sets_name (srv : chat_server) (w : worker) (c : client) (status : Int)
    (s : List Nat) (hc : user_at srv._users w.p_client = some c)
    (hbuf : c._in_buf = zeros MAX_BUFFER_LEN)
    (hlen : s.length ≤ 63) (hnul : 0 ∉ s) (_hnl : 10 ∉ s) :
    ∃ srv1 w1 c1,
      thread_input srv w status (bytes "/nick " ++ s ++ bytes "\n") = some (srv1, w1) ∧
      user_at srv1._users w.p_client = some c1 ∧
      read_str c1._name = some s ∧ c1._name = field 64 s ∧
      c1._channel = c._channel ∧ c1.connected = c.connected ∧
      c1.p_queue = c.p_queue ∧ c1._tcp_socket = c._tcp_socket := by
  refine ⟨_, _, after_nick c s, thread_input_nick_line srv w c status s hc hbuf hlen hnul,
    user_at_set hc _, ?_, rfl, rfl, rfl, rfl, rfl⟩
  exact read_str_field hnul (by omega)

/-- Witness for `nick_sets_name`: `anon1` of `two_sessions` renames itself to `bob`. -/
theorem nick_sets_name_witness :
    ∃ srv1 w1 c1,
      thread_input two_sessions (worker_at 0) 10
          (bytes "/nick " ++ bytes "bob" ++ bytes "\n") = some (srv1, w1) ∧
      user_at srv1._users (worker_at 0).p_client = some c1 ∧
      read_str c1._name = some (bytes "bob") ∧ c1._name = field 64 (bytes "bob") ∧
      c1._channel = (session 10 1)._channel ∧
      c1.connected = (session 10 1).connected ∧
      c1.p_queue = (session 10 1).p_queue ∧
      c1._tcp_socket = (session 10 1)._tcp_socket :=
  nick_sets_name two_sessions (worker_at 0)
    (session 10 1) 10 (bytes "bob") rfl rfl (by decide) (by decide) (by decide)

/-- C5. `/join` sets the channel: for a session whose `_in_buf` was cleared for
the receive, and every text `s` of at most 63 bytes without NUL and without line
terminator, processing the received line `"/join " ++ s ++ "\n"` leaves the
session with a channel field that reads exactly `s`; the name, queue and socket
are unchanged, and a connected session with a non-negative receive result passes
the next loop test (it stays connected). -/
theorem join_sets_channel (srv : chat_server) (w : worker) (c : client) (status : Int)
    (s : List Nat) (hc : user_at srv._users w.p_client = some c)
    (hbuf : c._in_buf = zeros MAX_BUFFER_LEN)
    (hlen : s.length ≤ 63) (hnul : 0 ∉ s) (_hnl : 10 ∉ s)
    (hconn : c.connected = true) (hst : 0 ≤ status) :
    ∃ srv1 w1 c1,
      thread_input srv w status (bytes "/join " ++ s ++ bytes "\n") = some (srv1, w1) ∧
      user_at srv1._users w.p_client = some c1 ∧
      read_str c1._channel = some s ∧ c1._channel = field 64 s ∧
      c1._name = c._name ∧ c1.p_queue = c.p_queue ∧ c1._tcp_socket = c._tcp_socket ∧
      w1.at_stage = stage.loop_test ∧ ¬ (c1.connected = false ∨ w1.status < 0) := by
  have hrecv := receive_line (bytes "/join ") s 10 (by decide) hlen
  have hev := evaluate_join_line
    { c with _in_buf := bytes "/join " ++ s ++ 10 :: zeros (1016 - s.length + 1) }
    status s (1016 - s.length) hnul hlen rfl
  have hhead : (bytes "/join " ++ s ++ 10 :: zeros (1016 - s.length + 1)).head? = some 47 := by
    rw [bytes_join]; rfl
  obtain ⟨c1, hc1⟩ : ∃ c1 : client, c1 = { c with
      _in_buf := bytes "/join " ++ s ++ 10 :: zeros (1016 - s.length + 1),
      _channel := field 64 s } :=
    ⟨_, rfl⟩
  refine ⟨{ srv with _users := srv._users.set w.p_client.toNat c1 },
          { w with status := status, at_stage := stage.loop_test }, c1,
          ?_, user_at_set hc _, ?_, ?_, ?_, ?_, ?_, rfl, ?_⟩
  · unfold thread_input
    rw [hc, bytes_nl]
    simp only [Option.bind_eq_bind, Option.some_bind]
    rw [hbuf, hrecv]
    simp only [Option.some_bind]
    rw [if_pos hhead, hev]
    simp only [Option.some_bind]
    rw [store_user_of_user_at hc]
    simp only [Option.some_bind, Option.pure_def]
    rw [hc1]
  · rw [hc1]; exact read_str_field hnul (by omega)
  · rw [hc1]
  · rw [hc1]
  · rw [hc1]
  · rw [hc1]
  · rw [hc1]
    intro h
    rcases h with h | h
    · rw [hconn] at h; exact Bool.noConfusion h
    · exact absurd h (by simp only [not_lt]; exact hst)

/-- Witness for `join_sets_channel`: for `anon1` of `two_sessions`, `/join lobby`
gives exactly `lobby`. -/
theorem join_sets_channel_witness :
    ∃ srv1 w1 c1,
      thread_input two_sessions (worker_at 0) 12
          (bytes "/join " ++ bytes "lobby" ++ bytes "\n") = some (srv1, w1) ∧
      user_at srv1._users (worker_at 0).p_client = some c1 ∧
      read_str c1._channel = some (bytes "lobby") ∧ c1._channel = field 64 (bytes "lobby") ∧
      c1._name = (session 10 1)._name ∧ c1.p_queue = (session 10 1).p_queue ∧
      c1._tcp_socket = (session 10 1)._tcp_socket ∧
      w1.at_stage = stage.loop_test ∧ ¬ (c1.connected = false ∨ w1.status < 0) :=
  join_sets_channel two_sessions (worker_at 0)
    (session 10 1) 12 (bytes "lobby") rfl rfl (by decide) (by decide)
    (by decide) rfl (by decide)

/-! ## Broadcast fan-out -/

/-- The `for` loop appends the sender to the queue of each of the first `n`
slots and leaves the other slots alone. -/
theorem enqueue_all_spec (users : List client) (p : Int) : ∀ n, n ≤ users.length →
    (∀ i, i < n → ∀ u, users[i]? = some u → u.p_queue ≠ none) →
    ∃ us, enqueue_all users p n = some us ∧ us.length = users.length ∧
      (∀ i, i < n → ∀ u, users[i]? = some u →
        ∃ q, u.p_queue = some q ∧ us[i]? = some { u with p_queue := some (queue_enqueue q p) }) ∧
      (∀ i, n ≤ i → us[i]? = users[i]?) := by
  intro n
  induction n with
  | zero =>
    intro _ _
    exact ⟨users, rfl, rfl, fun i hi => absurd hi (Nat.not_lt_zero i), fun _ _ => rfl⟩
  | succ n ih =>
    intro hn hq
    obtain ⟨us, hus, hlen, hlow, hhigh⟩ :=
      ih (by omega) (fun i hi u hu => hq i (by omega) u hu)
    have hn1 : n < users.length := by omega
    obtain ⟨u, hu⟩ : ∃ u, users[n]? = some u := ⟨users[n], List.getElem?_eq_getElem hn1⟩
    obtain ⟨q, hqq⟩ : ∃ q, u.p_queue = some q := by
      cases h : u.p_queue with
      | none => exact absurd h (hq n (by omega) u hu)
      | some q => exact ⟨q, rfl⟩
    have husn : us[n]? = some u := by rw [hhigh n (Nat.le_refl n), hu]
    refine ⟨us.set n { u with p_queue := some (queue_enqueue q p) }, ?_, ?_, ?_, ?_⟩
    · simp only [enqueue_all, hus, Option.bind_eq_bind, Option.some_bind, enqueue_at, husn, hqq,
        Option.pure_def]
    · simp [hlen]
    · intro i hi v hv
      by_cases hin : i = n
      · subst hin
        rw [hu] at hv
        cases hv
        refine ⟨q, hqq, ?_⟩
        simp [List.getElem?_set, hlen, hn1]
      · obtain ⟨q1, hq1, hget⟩ := hlow i (by omega) v hv
        refine ⟨q1, hq1, ?_⟩
        rw [List.getElem?_set_ne (fun h => hin h.symm), hget]
    · intro i hi
      rw [List.getElem?_set_ne (by omega), hhigh i (by omega)]

/-- Storing the received bytes touches nothing but the `_in_buf` of the slot. -/
theorem store_in_buf_get {users : List client} {i : Int} {c : client}
    (h : user_at users i = some c) (buf : List Nat) (k : Nat) (u : client)
    (hu : users[k]? = some u) :
    ∃ u1, (users.set i.toNat { c with _in_buf := buf })[k]? = some u1 ∧
      same_but_in_buf u u1 := by
  obtain ⟨_, hget⟩ := user_at_some h
  have hk : k < users.length := by
    rcases Nat.lt_or_ge k users.length with h1 | h1
    · exact h1
    · rw [List.getElem?_eq_none h1] at hu; simp at hu
  by_cases hki : i.toNat = k
  · subst hki
    rw [hget] at hu
    cases hu
    refine ⟨{ c with _in_buf := buf }, ?_, rfl, rfl, rfl, rfl, rfl⟩
    simp [List.getElem?_set, hk]
  · exact ⟨u, by rw [List.getElem?_set_ne hki, hu], rfl, rfl, rfl, rfl, rfl⟩

/-- First byte of the buffer after the receive: not the sigil when the data does
not start with it (an empty receive leaves the NUL of the cleared buffer). -/
theorem head_after_receive (data : List Nat) (n : Nat) (hn : 0 < n)
    (hsig : data.head? ≠ some 47) : (field n (data.take n)).head? ≠ some 47 := by
  obtain ⟨m, rfl⟩ : ∃ m, n = m + 1 := ⟨n - 1, by omega⟩
  cases data with
  | nil => simp [field, zeros, List.replicate_succ]
  | cons a rest =>
    simp only [List.head?_cons] at hsig
    simp only [field, List.take_succ_cons, List.cons_append, List.head?_cons]
    exact hsig

/-- The input step on a line that does not start with `/`: when the slots below
the connection count all hold constructed queues, one entry (the pointer to the
sender's `_name`) is appended to the queue of every slot below the count and to
no other; names, channels and sockets of all slots are unchanged. -/
theorem thread_input_broadcast (srv : chat_server) (w : worker) (c : client) (status : Int)
    (data : List Nat) (hc : user_at srv._users w.p_client = some c)
    (hbuf : c._in_buf = zeros MAX_BUFFER_LEN) (hsig : data.head? ≠ some 47)
    (hcount : 0 ≤ srv.connections) (hn : srv.connections.toNat ≤ srv._users.length)
    (hq : ∀ i, i < srv.connections.toNat →
      ((srv._users[i]?).bind client.p_queue).isSome = true) :
    ∃ srv1 w1, thread_input srv w status data = some (srv1, w1) ∧
      srv1.connections = srv.connections ∧ w1.status = status ∧
      w1.p_client = w.p_client ∧
      (∀ i, i < srv.connections.toNat → ∀ u, srv._users[i]? = some u →
        ∃ q u1, u.p_queue = some q ∧ srv1._users[i]? = some u1 ∧
          u1.p_queue = some (queue_enqueue q w.p_client) ∧ u1._name = u._name ∧
          u1._channel = u._channel ∧ u1._tcp_socket = u._tcp_socket) ∧
      (∀ i, srv.connections.toNat ≤ i → ∀ u, srv._users[i]? = some u →
        ∃ u1, srv1._users[i]? = some u1 ∧ same_but_in_buf u u1) := by
  have hrecv : poke c._in_buf 0 (data.take MAX_BUFFER_LEN) =
      some (field MAX_BUFFER_LEN (data.take MAX_BUFFER_LEN)) := by
    rw [hbuf]
    exact poke_zeros_front (List.length_take_le _ _)
  have hhead := head_after_receive data MAX_BUFFER_LEN (by decide) hsig
  obtain ⟨users1, hu1⟩ : ∃ users1, users1 = srv._users.set w.p_client.toNat
      { c with _in_buf := field MAX_BUFFER_LEN (data.take MAX_BUFFER_LEN) } := ⟨_, rfl⟩
  have hlen1 : users1.length = srv._users.length := by
    rw [hu1]; exact List.length_set _ _ _
  have hfwd : ∀ (k : Nat) (u : client), srv._users[k]? = some u →
      ∃ u1, users1[k]? = some u1 ∧ same_but_in_buf u u1 := by
    intro k u hu
    rw [hu1]
    exact store_in_buf_get hc _ k u hu
  have hback : ∀ (k : Nat) (u1 : client), users1[k]? = some u1 →
      ∃ u, srv._users[k]? = some u ∧ same_but_in_buf u u1 := by
    intro k u1 hk
    have hklt : k < srv._users.length := by
      rcases Nat.lt_or_ge k users1.length with h1 | h1
      · omega
      · rw [List.getElem?_eq_none h1] at hk; simp at hk
    obtain ⟨u2, h2, hsame⟩ := hfwd k _ (List.getElem?_eq_getElem hklt)
    rw [hk] at h2
    cases h2
    exact ⟨_, List.getElem?_eq_getElem hklt, hsame⟩
  obtain ⟨us, hus, _, hlow, hhigh⟩ := enqueue_all_spec users1 w.p_client
    srv.connections.toNat (by omega) (by
      intro i hi u1 hu1q
      obtain ⟨u, hu, hsame⟩ := hback i u1 hu1q
      rw [hsame.2.2.2.1]
      intro hnone
      have := hq i hi
      rw [hu, Option.some_bind, hnone] at this
      exact Bool.noConfusion this)
  refine ⟨{ srv with _users := us }, { w with status := status, at_stage := stage.loop_test },
    ?_, rfl, rfl, rfl, ?_, ?_⟩
  · unfold thread_input
    rw [hc]
    simp only [Option.bind_eq_bind, Option.some_bind]
    rw [hrecv]
    simp only [Option.some_bind]
    rw [if_neg hhead, if_neg (not_lt.mpr hcount), store_user_of_user_at hc]
    simp only [Option.some_bind]
    rw [← hu1, hus]
    simp only [Option.some_bind, Option.pure_def]
  · intro i hi u hu
    obtain ⟨u1, hget1, hsame⟩ := hfwd i u hu
    obtain ⟨q, hq1, hget⟩ := hlow i hi u1 hget1
    refine ⟨q, _, ?_, hget, rfl, hsame.1, hsame.2.1, hsame.2.2.2.2⟩
    rw [← hsame.2.2.2.1, hq1]
  · intro i hi u hu
    obtain ⟨u1, hget1, hsame⟩ := hfwd i u hu
    exact ⟨u1, by rw [← hget1]; exact hhigh i hi, hsame⟩

/-- Replacing a thread record by one for the same slot keeps the list of slots. -/
theorem map_set_same {α β : Type} (f : α → β) : ∀ (l : List α) (k : Nat) (a b : α),
    l[k]? = some a → f b = f a → (l.set k b).map f = l.map f
  | [], _, _, _, h, _ => by simp at h
  | x :: l, 0, a, b, h, hf => by
    simp only [List.getElem?_cons_zero, Option.some.injEq] at h
    subst h
    simp [hf]
  | x :: l, k + 1, a, b, h, hf => by
    simp only [List.getElem?_cons_succ] at h
    simp only [List.set_cons_succ, List.map_cons, List.cons.injEq, true_and]
    exact map_set_same f l k a b h hf

/-- C1 (amended). Broadcast fan-out as the code does it.  Take a state in which
every live session (running thread) has its slot below the connection count and
the slots below the count hold constructed queues.  When the thread of a live
session S, blocked in its receive, gets a line whose first byte is not `/`, the
step is defined and appends one entry to the queue of every live session (S is
one of them) while names stay as they are.  The entry is the pointer to S's
`_name` field: it carries no line text, and a drain prints it as S's name and a
newline. -/
theorem broadcast_fanout (s : system) (k : Nat) (w : worker) (c : client) (status : Int)
    (data : List Nat) (hw : s.workers[k]? = some w) (hstage : w.at_stage = stage.receiving)
    (hc : user_at s.server._users w.p_client = some c)
    (hbuf : c._in_buf = zeros MAX_BUFFER_LEN) (hsig : data.head? ≠ some 47)
    (hn : s.server.connections.toNat ≤ s.server._users.length)
    (hlive : ∀ p, p ∈ thread_slots s → 0 ≤ p ∧ p < s.server.connections)
    (hq : ∀ i, i < s.server.connections.toNat →
      ((s.server._users[i]?).bind client.p_queue).isSome = true) :
    ∃ s1, step s (action.deliver k status data) = some s1 ∧
      thread_slots s1 = thread_slots s ∧ w.p_client ∈ thread_slots s ∧
      s1.server.connections = s.server.connections ∧ s1.wire = s.wire ∧
      (∀ p, p ∈ thread_slots s → ∃ u q u1,
        user_at s.server._users p = some u ∧ u.p_queue = some q ∧
        user_at s1.server._users p = some u1 ∧
        u1.p_queue = some (queue_enqueue q w.p_client) ∧ u1._name = u._name) ∧
      entry_text s1.server._users w.p_client = (read_str c._name).map (fun nm => nm ++ [10]) := by
  have hmem : w.p_client ∈ thread_slots s :=
    List.mem_map.mpr ⟨w, List.getElem?_mem hw, rfl⟩
  have hcount : 0 ≤ s.server.connections := by
    have := hlive _ hmem
    omega
  obtain ⟨srv1, w1, hin, hconn, _, hpc, hlow, _⟩ :=
    thread_input_broadcast s.server w c status data hc hbuf hsig hcount hn hq
  have hall : ∀ p, p ∈ thread_slots s → ∃ u q u1,
      user_at s.server._users p = some u ∧ u.p_queue = some q ∧
      user_at srv1._users p = some u1 ∧
      u1.p_queue = some (queue_enqueue q w.p_client) ∧ u1._name = u._name := by
    intro p hp
    obtain ⟨h0, hlt⟩ := hlive p hp
    have hi : p.toNat < s.server.connections.toNat := by omega
    have hil : p.toNat < s.server._users.length := by omega
    obtain ⟨q, u1, hq1, hget, hqu, hname, _, _⟩ :=
      hlow p.toNat hi _ (List.getElem?_eq_getElem hil)
    refine ⟨_, q, u1, ?_, hq1, ?_, hqu, hname⟩
    · unfold user_at; rw [if_pos h0]; exact List.getElem?_eq_getElem hil
    · unfold user_at; rw [if_pos h0]; exact hget
  refine ⟨{ s with server := srv1, workers := s.workers.set k w1 }, ?_, ?_, hmem, hconn, rfl,
    hall, ?_⟩
  · simp only [step, hw, Option.bind_eq_bind, Option.some_bind, hstage, hin, Option.pure_def]
  · exact map_set_same worker.p_client s.workers k w w1 hw hpc
  · obtain ⟨u, q, u1, hu, _, hu1, _, hname⟩ := hall _ hmem
    rw [hc] at hu
    cases hu
    show entry_text srv1._users w.p_client = _
    unfold entry_text
    rw [hu1]
    simp only [Option.bind_eq_bind, Option.some_bind, hname]
    cases read_str c._name <;> rfl

set_option maxRecDepth 100000 in
/-- Witness for `broadcast_fanout`: `two_sessions` with both threads blocked in
their receive; the first session gets `hello`. -/
theorem broadcast_fanout_witness :
    ∃ s1, step { server := two_sessions, workers := [worker_at 0, worker_at 1], wire := [] }
        (action.deliver 0 6 (bytes "hello\n")) = some s1 ∧
      thread_slots s1 = [0, 1] ∧ (0 : Int) ∈ ([0, 1] : List Int) ∧
      s1.server.connections = 2 ∧ s1.wire = [] ∧
      (∀ p, p ∈ ([0, 1] : List Int) → ∃ u q u1,
        user_at two_sessions._users p = some u ∧ u.p_queue = some q ∧
        user_at s1.server._users p = some u1 ∧
        u1.p_queue = some (queue_enqueue q 0) ∧ u1._name = u._name) ∧
      entry_text s1.server._users 0 =
        (read_str (session 10 1)._name).map (fun nm => nm ++ [10]) :=
  broadcast_fanout { server := two_sessions, workers := [worker_at 0, worker_at 1], wire := [] }
    0 (worker_at 0) (session 10 1) 6 (bytes "hello\n") rfl rfl rfl rfl (by decide) (by decide)
    (by decide) (by decide)

set_option maxRecDepth 100000 in
/-- The state `two_sessions` is reached by two connects, after which both
threads construct their queue and send their first prompt. -/
theorem two_sessions_reachable :
    (exec (boot chat_server_init)
        [action.connect 10 1, action.connect 11 2, action.resume 0, action.resume 1,
         action.resume 0, action.resume 1]).map (fun s => (s.server, s.workers)) =
      some (two_sessions, [worker_at 0, worker_at 1]) := by
  decide!

/-! ## Rename and queued entries -/

/-- A store that keeps the queue of the slot keeps every queue. -/
theorem set_user_queue {users : List client} {i : Int} {c : client}
    (h : user_at users i = some c) (c1 : client) (hq : c1.p_queue = c.p_queue) (k : Nat) :
    ((users.set i.toNat c1)[k]?).map client.p_queue = (users[k]?).map client.p_queue := by
  obtain ⟨_, hget⟩ := user_at_some h
  have hlt := user_at_lt h
  by_cases hki : i.toNat = k
  · subst hki
    rw [hget]
    simp [List.getElem?_set, hlt, hq]
  · rw [List.getElem?_set_ne hki]

/-- C7 (amended). Rename and queued entries as the code does it: a queue entry
is a pointer to the sender's `_name` field, so after a session executes
`/nick newname` no queue has changed, and every entry that refers to the
session, whether it was enqueued before the rename or is enqueued after it, is
printed by a drain as `newname` and a newline. -/
theorem rename_reaches_queued_entries (srv : chat_server) (w : worker) (c : client)
    (status : Int) (s : List Nat) (hc : user_at srv._users w.p_client = some c)
    (hbuf : c._in_buf = zeros MAX_BUFFER_LEN) (hlen : s.length ≤ 63) (hnul : 0 ∉ s)
    (_hnl : 10 ∉ s) :
    ∃ srv1 w1,
      thread_input srv w status (bytes "/nick " ++ s ++ bytes "\n") = some (srv1, w1) ∧
      (∀ k : Nat, (srv1._users[k]?).map client.p_queue = (srv._users[k]?).map client.p_queue) ∧
      entry_text srv1._users w.p_client = some (s ++ [10]) := by
  refine ⟨_, _, thread_input_nick_line srv w c status s hc hbuf hlen hnul, ?_, ?_⟩
  · intro k
    exact set_user_queue hc (after_nick c s) rfl k
  · unfold entry_text
    rw [user_at_set hc]
    simp only [Option.bind_eq_bind, Option.some_bind]
    unfold after_nick
    rw [read_str_field hnul (by omega)]
    simp only [Option.some_bind, Option.pure_def]

/-- Witness for `rename_reaches_queued_entries`: `anon1` of `two_sessions`
renames itself to `bob`. -/
theorem rename_reaches_queued_entries_witness :
    ∃ srv1 w1,
      thread_input two_sessions (worker_at 0) 10
          (bytes "/nick " ++ bytes "bob" ++ bytes "\n") = some (srv1, w1) ∧
      (∀ k : Nat, (srv1._users[k]?).map client.p_queue =
        (two_sessions._users[k]?).map client.p_queue) ∧
      entry_text srv1._users (worker_at 0).p_client = some (bytes "bob" ++ [10]) :=
  rename_reaches_queued_entries two_sessions (worker_at 0) (session 10 1) 10 (bytes "bob")
    rfl rfl (by decide) (by decide) (by decide)

/-! ## Runs of the code at concrete inputs -/

set_option maxRecDepth 100000 in
/-- C1 (counterexample). Three sessions `anon1`, `anon2`, `anon3` in slots 0, 1, 2;
`anon1` leaves with `/disconnect`, so the threads of slots 1 and 2 are the live
sessions and the count is 2.  Then `anon3` receives `hello`: the entry goes to
the queues of slots 0 and 1, the queue of the sender's own slot 2 stays empty.
When `anon2` drains, the block it is sent is six NUL bytes and `anon3\n`: the
text `hello` is not in it. -/
theorem broadcast_skips_live_sender :
    (exec (boot chat_server_init) run_first_leaves).map
        (fun s => (s.server.connections, thread_slots s, (queues s).take 3)) =
      some (2, [1, 2], [some [], some [], some []]) ∧
    (exec (boot chat_server_init)
        (run_first_leaves ++ [action.deliver 1 6 (bytes "hello\n")])).map
        (fun s => (s.server.connections, thread_slots s, (queues s).take 3)) =
      some (2, [1, 2], [some [2], some [2], some []]) ∧
    (exec (boot chat_server_init)
        (run_first_leaves ++ [action.deliver 1 6 (bytes "hello\n"), action.resume 0])).map
        last_io =
      some (some (io.send 11 (zeros 6 ++ bytes "anon3\n" ++
        identity_prompt (bytes "anon2") (bytes "chat") (bytes "general")))) := by
  decide!

set_option maxRecDepth 100000 in
/-- C3. Sessions A (`anon1`, slot 0, socket 10) and B (`anon2`, slot 1): after A
processed `/disconnect` its thread has sent `BYE`, shut down socket 10 and the
count went from 2 to 1; only B's thread is left.  B then receives `hi`: the
entry is appended to the queue of slot 0, which is A's, and B's own queue gets
nothing. -/
theorem disconnect_keeps_slot_in_fanout :
    (exec (boot chat_server_init) run_disconnect).map
        (fun s => (s.server.connections, thread_slots s, s.wire.drop 2, (queues s).take 2)) =
      some (1, [1], [io.send 10 (bytes "BYE\n"), io.destroy 10], [some [], some []]) ∧
    (exec (boot chat_server_init)
        (run_disconnect ++ [action.deliver 0 3 (bytes "hi\n")])).map
        (fun s => (s.server.connections, thread_slots s, (queues s).take 2)) =
      some (1, [1], [some [1], some []]) := by
  decide!

set_option maxRecDepth 100000 in
/-- C6. A prompted session whose receive returns 0 with nothing stored: the
cleared buffer does not start with `/`, so the entry is enqueued as for a
broadcast line; the loop test passes (`status < 0` is false), a second prompt is
sent and the thread waits in `socket_tcp_receive` again; the count stays 1.
With result -1 the entry is enqueued as well, and the thread then leaves. -/
theorem receive_zero_is_retried :
    (exec (boot chat_server_init) (run_prompted ++ [action.deliver 0 0 []])).map
        (fun s => (thread_status s, (queues s).take 1, s.wire.length)) =
      some ([0], [some [0]], 1) ∧
    (exec (boot chat_server_init)
        (run_prompted ++ [action.deliver 0 0 [], action.resume 0])).map
        (fun s => (s.server.connections, thread_stages s, s.wire.length, last_io s)) =
      some (1, [stage.receiving], 2,
        some (io.send 10 (zeros 6 ++ bytes "anon1\n" ++
          identity_prompt (bytes "anon1") (bytes "chat") (bytes "general")))) ∧
    (exec (boot chat_server_init) (run_prompted ++ [action.deliver 0 (-1) []])).map
        (fun s => (thread_status s, (queues s).take 1)) =
      some ([-1], [some [0]]) ∧
    (exec (boot chat_server_init)
        (run_prompted ++ [action.deliver 0 (-1) [], action.resume 0, action.resume 0])).map
        (fun s => (s.server.connections, thread_slots s)) =
      some (0, []) := by
  decide!

set_option maxRecDepth 100000 in
/-- C7 (counterexample). `anon1` sends `hello`, which puts an entry on the queue of
`anon2` while the sender's name is `anon1` (first seven steps of the run);
`anon1` then executes `/nick bob` and the entry is still on the queue of `anon2`;
when `anon2` drains afterwards, the entry is printed as `bob\n`, not as
`anon1\n`. -/
theorem rename_is_retroactive :
    (exec (boot chat_server_init) (run_rename.take 7)).map
        (fun s => ((names s).take 2, (queues s).take 2)) =
      some ([bytes "anon1", bytes "anon2"], [some [0], some [0]]) ∧
    (exec (boot chat_server_init) run_rename).map
        (fun s => ((names s).take 2, (queues s).take 2)) =
      some ([bytes "bob", bytes "anon2"], [some [], some [0]]) ∧
    (exec (boot chat_server_init) (run_rename ++ [action.resume 1])).map last_io =
      some (some (io.send 11 (zeros 4 ++ bytes "bob\n" ++
        identity_prompt (bytes "anon2") (bytes "chat") (bytes "x")))) := by
  decide!

set_option maxRecDepth 100000 in
/-- C8. A session drains one entry in its second iteration (the prompt sent is
six NUL bytes, `anon1\n`, the identity prompt).  In its third iteration the
queue is empty at the start, and the prompt sent starts with the line `anon1\n`
of the iteration before: `_message_queue` is not cleared between iterations. -/
theorem stale_pending_block :
    (exec (boot chat_server_init) run_stale).map
        (fun s => ((queues s).take 1, last_io s)) =
      some ([some []],
        some (io.send 10 (zeros 6 ++ bytes "anon1\n" ++
          identity_prompt (bytes "anon1") (bytes "chat") (bytes "general")))) ∧
    (exec (boot chat_server_init) (run_stale ++ [action.resume 0])).map last_io =
      some (some (io.send 10 (bytes "anon1\n" ++
        identity_prompt (bytes "anon1") (bytes "chat") (bytes "x")))) := by
  decide!

set_option maxRecDepth 100000 in
/-- C9. With `max_users = 8` and eight sessions admitted, the slot the next
`someone_connected` stores to is index 8, outside `_users[0 .. 7]`.  And after
`anon1` (slot 0) left while `anon2` (slot 1) is still running, the count is 1 and
the next `someone_connected` stores to slot 1: name, queue and socket of the
running session `anon2` are replaced by those of the new peer. -/
theorem connect_slot_outside_or_live :
    (exec (boot chat_server_init) run_full).map
        (fun s => (someone_connected_slot s.server, s.server._users.length,
                   (user_at s.server._users (someone_connected_slot s.server)).isSome)) =
      some (8, 8, false) ∧
    (exec (boot chat_server_init) run_disconnect).map
        (fun s => (someone_connected_slot s.server, thread_slots s, thread_stages s)) =
      some (1, [1], [stage.receiving]) ∧
    (exec (boot chat_server_init) run_disconnect).map
        (fun s => ((names s).take 2, (queues s).take 2, (sockets s).take 2)) =
      some ([bytes "anon1", bytes "anon2"], [some [], some []], [10, 11]) ∧
    (exec (boot chat_server_init) (run_disconnect ++ [action.connect 12 3])).map
        (fun s => (thread_slots s, (names s).take 2, (queues s).take 2, (sockets s).take 2)) =
      some ([1, 1], [bytes "anon1", bytes "anon3"], [some [], none], [10, 12]) := by
  exact ⟨by decide!, by decide!, by decide!, by decide!⟩

set_option maxRecDepth 100000 in
/-- C10. Copy lengths of the command interpreter: for `/join ` followed by 100
bytes and a newline the `memcpy` length is 100, past the 64 byte field; for a
bare `/join ` the length `strlen - 1` wraps to `2 ^ 64 - 1`; for `/nick `
followed by 100 bytes and a newline the length is 100; and a remainder of 64
bytes fills `_channel` without a terminator. -/
theorem copy_length_not_bounded :
    join_copy_len (received (bytes "/join " ++ List.replicate 100 97 ++ bytes "\n")) =
      some 100 ∧
    join_command { zeroed_client with
      _in_buf := received (bytes "/join " ++ List.replicate 100 97 ++ bytes "\n") } = none ∧
    join_copy_len (received (bytes "/join ")) = some (2 ^ 64 - 1) ∧
    nick_copy_len (received (bytes "/nick " ++ List.replicate 100 97 ++ bytes "\n")) =
      some 100 ∧
    (join_command { zeroed_client with
      _in_buf := received (bytes "/join " ++ List.replicate 64 97 ++ bytes "\n") }).map
        (fun c => (c._channel.length, read_str c._channel)) = some (64, none) := by
  decide!

end Chat
